import Mathlib

/-!
Verification of the channel-identifier resolution and paginated video
listing core of the youtube-video-downloader repository.

Python strings are modelled as lists of characters (`Str`), Python string
methods (`startswith`, `replace`, `split`, `in`) as executable functions on
`Str`, and each external endpoint call as a value of `Except Str` supplied
by an environment: `Except.error e` models the underlying request raising
an exception with message `e`, `Except.ok items` models a response whose
relevant payload has already been extracted (for channel lookups, the list
of channel identifiers of the returned items).  Network calls issued by the
code are additionally recorded in a trace so that call-ordering and
call-counting properties can be stated.

The definitions follow src/src/youtube_api.py: `get_channel_id`
(normalisation, the `/channel/` branch and the three lookup strategies) and
`get_channel_videos` (pagination with `min(50, max_results - len(videos))`
page sizes and the trailing `raise Exception("Failed to retrieve videos: ...")`
wrapper).
-/

/-- Python strings, modelled as lists of characters. -/
abbrev Str := List Char

/-- Conversion from Lean string literals into the `Str` model. -/
def pys (s : String) : Str := s.toList

/-- Python `pat in s`: does `pat` occur as a contiguous substring of `s`? -/
def occurs (pat : Str) : Str → Bool
  | [] => pat.isPrefixOf []
  | c :: rest => pat.isPrefixOf (c :: rest) || occurs pat rest

/-- Python `s.split(pat)` for a non-empty separator `pat`: the list of
pieces of `s` between non-overlapping occurrences of `pat`, scanned left to
right.  Like Python, the result always has at least one element. -/
def pySplit (pat : Str) : Str → List Str
  | [] => [[]]
  | c :: rest =>
    if pat.isPrefixOf (c :: rest) then
      [] :: pySplit pat (List.drop (pat.length - 1) rest)
    else
      (c :: ((pySplit pat rest).headD [])) :: (pySplit pat rest).tail
termination_by s => s.length
decreasing_by
  all_goals simp [List.length_drop]
  omega

/-- Python `s.replace(pat, rep)` for a non-empty `pat`: replace every
non-overlapping occurrence of `pat` in `s` by `rep`, scanning left to
right. -/
def replaceAll (pat rep : Str) : Str → Str
  | [] => []
  | c :: rest =>
    if pat.isPrefixOf (c :: rest) then
      rep ++ replaceAll pat rep (List.drop (pat.length - 1) rest)
    else
      c :: replaceAll pat rep rest
termination_by s => s.length
decreasing_by
  all_goals simp [List.length_drop]
  omega

/-- Characters of `s` strictly before the first occurrence of `pat`
(all of `s` when `pat` does not occur).  Helper for relating `pySplit`
to first-occurrence phrasing. -/
def takeToOcc (pat : Str) : Str → Str
  | [] => []
  | c :: rest => if pat.isPrefixOf (c :: rest) then [] else c :: takeToOcc pat rest

/-- Characters of `s` strictly after the first occurrence of `pat`
(empty when `pat` does not occur).  This is the specification-side reading
of "the text immediately following the first `pat`". -/
def dropThroughFirst (pat : Str) : Str → Str
  | [] => []
  | c :: rest =>
    if pat.isPrefixOf (c :: rest) then List.drop pat.length (c :: rest)
    else dropThroughFirst pat rest

/-- One recorded external lookup of the resolver: either
`youtube.search().list(part="snippet", q=q, type="channel", maxResults=1)`
or `youtube.channels().list(part="id", forUsername=u)`. -/
inductive LookupCall where
  | search (q : Str)
  | channelsFor (u : Str)
deriving DecidableEq

/-- Environment of the resolver: the behaviour of the two external
endpoints it may consult.  `search q` returns the channel identifiers of
the items of a channel-type search for `q`; `channelsFor u` returns the
ids of the items of a legacy `forUsername` lookup.  An `Except.error`
models the request raising. -/
structure LookupEnv where
  search : Str → Except Str (List Str)
  channelsFor : Str → Except Str (List Str)

/-- Outcome of one try/except-guarded strategy of `get_channel_id`: a
raised exception is caught (`none`), an empty item list is falsy (`none`),
and otherwise the first item's channel identifier is taken. -/
def attemptOutcome (r : Except Str (List Str)) : Option Str :=
  match r with
  | Except.error _ => none
  | Except.ok [] => none
  | Except.ok (cid :: _) => some cid

/-- A lookup that "did not succeed" in the sense of the fallback chain:
it returned an empty result set or raised. -/
def lookupEmptyOrFailed (r : Except Str (List Str)) : Prop :=
  r = Except.ok [] ∨ ∃ e, r = Except.error e

/-- URL normalisation prologue of `get_channel_id`
(src/src/youtube_api.py lines 29-35): ensure an `http://`/`https://`
scheme, defaulting to `https`, and insert `www.` via `str.replace` when
the URL does not already start with a `www.` host. -/
def normalize_channel_url (channel_url : Str) : Str :=
  if !((pys "http://").isPrefixOf channel_url || (pys "https://").isPrefixOf channel_url) then
    let u := pys "https://" ++ channel_url
    if !((pys "https://www.").isPrefixOf u) then
      replaceAll (pys "https://") (pys "https://www.") u
    else u
  else if !((pys "http://www.").isPrefixOf channel_url
      || (pys "https://www.").isPrefixOf channel_url) then
    replaceAll (pys "http://") (pys "http://www.")
      (replaceAll (pys "https://") (pys "https://www.") channel_url)
  else channel_url

/-- Username/handle extraction of the `/c/`, `/user/`, `/@` branch:
`url.split('/@')[1].split('/')[0]` for handle URLs, otherwise
`url.split('/')[-1]`. -/
def extract_username (n : Str) : Str :=
  if occurs (pys "/@") n then
    (pySplit (pys "/") ((pySplit (pys "/@") n).getD 1 [])).getD 0 []
  else
    (pySplit (pys "/") n).getLastD []

/-- The ordered fallback chain of `get_channel_id` (lines 58-102): handle
search, then `forUsername`, then general search, each strategy guarded by
its own try/except, stopping at the first non-empty result and recording
the calls actually issued. -/
def lookup_chain (env : LookupEnv) (username : Str) : Option Str × List LookupCall :=
  match attemptOutcome (env.search (pys "@" ++ username)) with
  | some cid => (some cid, [LookupCall.search (pys "@" ++ username)])
  | none =>
    match attemptOutcome (env.channelsFor username) with
    | some cid =>
      (some cid, [LookupCall.search (pys "@" ++ username), LookupCall.channelsFor username])
    | none =>
      match attemptOutcome (env.search username) with
      | some cid =>
        (some cid, [LookupCall.search (pys "@" ++ username), LookupCall.channelsFor username,
          LookupCall.search username])
      | none =>
        (none, [LookupCall.search (pys "@" ++ username), LookupCall.channelsFor username,
          LookupCall.search username])

/-- Body of `get_channel_id` after normalisation: the `/channel/` branch
(`url.split('/channel/')[1].split('/')[0]`, no external call), then the
`/c/`・`/user/`・`/@` branch with the fallback chain, else `None`. -/
def resolve_core (env : LookupEnv) (n : Str) : Option Str × List LookupCall :=
  if occurs (pys "/channel/") n then
    (some ((pySplit (pys "/") ((pySplit (pys "/channel/") n).getD 1 [])).getD 0 []), [])
  else if occurs (pys "/c/") n || occurs (pys "/user/") n || occurs (pys "/@") n then
    lookup_chain env (extract_username n)
  else (none, [])

/-- Public entry point `YouTubeAPI.get_channel_id`: normalise the URL then
resolve.  The first component is the Python return value (`some cid` or
`none`); the second is the trace of external calls issued. -/
def get_channel_id (env : LookupEnv) (channel_url : Str) : Option Str × List LookupCall :=
  resolve_core env (normalize_channel_url channel_url)

/-- Replace a raising lookup outcome by an empty-result outcome.  Used to
state that `get_channel_id` treats a raising strategy exactly like one
that found nothing. -/
def calmLookup (r : Except Str (List Str)) : Except Str (List Str) :=
  match r with
  | Except.error _ => Except.ok []
  | Except.ok v => Except.ok v

/-- Environment in which every lookup that would raise instead returns an
empty result set. -/
def calmEnv (env : LookupEnv) : LookupEnv :=
  ⟨fun q => calmLookup (env.search q), fun u => calmLookup (env.channelsFor u)⟩

/-- Raw search item as consumed by `get_channel_videos`: the four fields
the code reads (`item['id']['videoId']`, `item['snippet']['title']`,
`item['snippet']['description']`, `item['snippet']['publishedAt']`),
each `none` when the key is absent from the response. -/
structure RawItem where
  videoId : Option Str
  title : Option Str
  description : Option Str
  publishedAt : Option Str
deriving DecidableEq

/-- The video record dict built by `get_channel_videos`. -/
structure VideoInfo where
  video_id : Str
  title : Str
  description : Str
  published_at : Str
deriving DecidableEq

/-- One page of the upstream search endpoint: `response.get('items', [])`
and the presence of `'nextPageToken' in response`. -/
structure Page where
  items : List RawItem
  nextPageToken : Option Str
deriving DecidableEq

/-- Record of one `request.execute()` against the search endpoint:
the `maxResults` value of the request, and how many records were
accumulated when it was issued. -/
structure CallRec where
  requested : Int
  accBefore : Nat
deriving DecidableEq

deriving instance DecidableEq for Except

/-- Python `d[key]` on a modelled optional field: a present value, or a
raised `KeyError`. -/
def pyKey (o : Option Str) (key : String) : Except Str Str :=
  match o with
  | some v => Except.ok v
  | none => Except.error (pys ("KeyError: " ++ key))

/-- The record mapper: the `video_info` dict literal of
`get_channel_videos` (lines 158-163), which indexes all four fields
directly, in source order, so any absent field raises. -/
def map_raw_item (it : RawItem) : Except Str VideoInfo :=
  match pyKey it.videoId "videoId" with
  | Except.error e => Except.error e
  | Except.ok vid =>
    match pyKey it.title "title" with
    | Except.error e => Except.error e
    | Except.ok t =>
      match pyKey it.description "description" with
      | Except.error e => Except.error e
      | Except.ok d =>
        match pyKey it.publishedAt "publishedAt" with
        | Except.error e => Except.error e
        | Except.ok p => Except.ok ⟨vid, t, d, p⟩

/-- The inner `for item in response.get('items', [])` loop: stop once
`len(videos) >= max_results`, otherwise map the item (propagating a
`KeyError`) and append. -/
def execItems (maxResults : Int) : List VideoInfo → List RawItem → Except Str (List VideoInfo)
  | acc, [] => Except.ok acc
  | acc, it :: rest =>
    if (acc.length : Int) ≥ maxResults then Except.ok acc
    else
      match map_raw_item it with
      | Except.error e => Except.error e
      | Except.ok v => execItems maxResults (acc ++ [v]) rest

/-- The `while request and len(videos) < max_results` pagination loop of
`get_channel_videos`.  `script` is the sequence of upstream responses the
remaining `execute()` calls will receive (an `Except.error` models the
call raising); `pending` is the built request's `maxResults`, `none`
meaning `request = None`.  Returns the Python outcome together with the
trace of executed page requests.  Consuming past the end of the script is
reported as a distinguished modelling error. -/
def pagesLoop (maxResults : Int) : List (Except Str Page) → List VideoInfo → Option Int →
    Except Str (List VideoInfo) × List CallRec
  | _, videos, none => (Except.ok videos, [])
  | script, videos, some req =>
    if (videos.length : Int) < maxResults then
      match script with
      | [] => (Except.error (pys "upstream gave no response"), [⟨req, videos.length⟩])
      | Except.error e :: _ => (Except.error e, [⟨req, videos.length⟩])
      | Except.ok page :: rest =>
        match execItems maxResults videos page.items with
        | Except.error e => (Except.error e, [⟨req, videos.length⟩])
        | Except.ok videos2 =>
          match page.nextPageToken with
          | some _ =>
            if (videos2.length : Int) < maxResults then
              let next := pagesLoop maxResults rest videos2
                (some (min 50 (maxResults - videos2.length)))
              (next.1, ⟨req, videos.length⟩ :: next.2)
            else (Except.ok videos2, [⟨req, videos.length⟩])
          | none => (Except.ok videos2, [⟨req, videos.length⟩])
    else (Except.ok videos, [])

/-- Public entry point `YouTubeAPI.get_channel_videos`: initial request of
`min(50, max_results)`, the pagination loop, and the surrounding
`except Exception: raise Exception(f"Failed to retrieve videos: {str(e)}")`
wrapper. -/
def get_channel_videos (script : List (Except Str Page)) (max_results : Int) :
    Except Str (List VideoInfo) × List CallRec :=
  let r := pagesLoop max_results script [] (some (min 50 max_results))
  match r.1 with
  | Except.ok vs => (Except.ok vs, r.2)
  | Except.error e => (Except.error (pys "Failed to retrieve videos: " ++ e), r.2)

/-- An item all of whose four fields are present. -/
def wellFormedItem (it : RawItem) : Bool :=
  it.videoId.isSome && it.title.isSome && it.description.isSome && it.publishedAt.isSome

/-- A scripted response that is a successful full page: 50 items, all
well formed, with a next-page token. -/
def fullPageB : Except Str Page → Bool
  | Except.error _ => false
  | Except.ok p => p.items.length == 50 && p.nextPageToken.isSome && p.items.all wellFormedItem

/-- A raw item whose four fields are present and empty. -/
def blankRawItem : RawItem := ⟨some [], some [], some [], some []⟩

/-- A full page of 50 blank items with a next-page token. -/
def fullPage50 : Page := ⟨List.replicate 50 blankRawItem, some (pys "tok")⟩

/-- Upstream script offering two full pages of 50 items each. -/
def script75 : List (Except Str Page) := [Except.ok fullPage50, Except.ok fullPage50]

/-- An environment whose lookups always succeed with an empty result set. -/
def emptyEnv : LookupEnv := ⟨fun _ => Except.ok [], fun _ => Except.ok []⟩

/-- An environment in which only the handle search for `@handle` finds a
channel, namely `UC999`. -/
def handleEnv : LookupEnv :=
  ⟨fun q => if q = pys "@handle" then Except.ok [pys "UC999"] else Except.ok [],
   fun _ => Except.ok []⟩

/-! Helper lemmas about the string model. -/

theorem ipo_append_self (p t : Str) : p.isPrefixOf (p ++ t) = true := by
  induction p with
  | nil => simp
  | cons a as ih => simp [List.isPrefixOf, ih]

theorem ipo_exists (p : Str) : ∀ s : Str, p.isPrefixOf s = true → ∃ t, s = p ++ t := by
  induction p with
  | nil => intro s _; exact ⟨s, rfl⟩
  | cons a as ih =>
    intro s h
    cases s with
    | nil => simp [List.isPrefixOf] at h
    | cons b bs =>
      simp only [List.isPrefixOf, Bool.and_eq_true, beq_iff_eq] at h
      obtain ⟨t, ht⟩ := ih bs h.2
      exact ⟨t, by rw [← h.1, ht]; rfl⟩

theorem replaceAll_nil (pat rep : Str) : replaceAll pat rep [] = [] := by
  simp [replaceAll]

theorem replaceAll_cons_pos (pat rep : Str) (c : Char) (rest : Str)
    (h : pat.isPrefixOf (c :: rest) = true) :
    replaceAll pat rep (c :: rest) =
      rep ++ replaceAll pat rep (List.drop (pat.length - 1) rest) := by
  rw [replaceAll]
  simp [h]

theorem replaceAll_cons_neg (pat rep : Str) (c : Char) (rest : Str)
    (h : pat.isPrefixOf (c :: rest) = false) :
    replaceAll pat rep (c :: rest) = c :: replaceAll pat rep rest := by
  rw [replaceAll]
  simp [h]

theorem replaceAll_append_self (pat rep t : Str) (h : pat ≠ []) :
    replaceAll pat rep (pat ++ t) = rep ++ replaceAll pat rep t := by
  cases pat with
  | nil => exact absurd rfl h
  | cons c cs =>
    have hp : (c :: cs).isPrefixOf (c :: (cs ++ t)) = true := ipo_append_self (c :: cs) t
    show replaceAll (c :: cs) rep (c :: (cs ++ t)) = rep ++ replaceAll (c :: cs) rep t
    rw [replaceAll_cons_pos _ _ _ _ hp]
    have hd : List.drop ((c :: cs).length - 1) (cs ++ t) = t := by
      simp [List.drop_left]
    rw [hd]

theorem replaceAll_keep_httpswww (rep w : Str) :
    replaceAll (pys "http://") rep (pys "https://www." ++ w) =
      pys "https://www." ++ replaceAll (pys "http://") rep w := by
  show replaceAll (pys "http://") rep
      ('h' :: 't' :: 't' :: 'p' :: 's' :: ':' :: '/' :: '/' :: 'w' :: 'w' :: 'w' :: '.' :: w) =
    'h' :: 't' :: 't' :: 'p' :: 's' :: ':' :: '/' :: '/' :: 'w' :: 'w' :: 'w' :: '.' ::
      replaceAll (pys "http://") rep w
  simp [replaceAll, pys, List.isPrefixOf]

theorem replaceAll_keep_http (rep w : Str) :
    replaceAll (pys "https://") rep (pys "http://" ++ w) =
      pys "http://" ++ replaceAll (pys "https://") rep w := by
  show replaceAll (pys "https://") rep
      ('h' :: 't' :: 't' :: 'p' :: ':' :: '/' :: '/' :: w) =
    'h' :: 't' :: 't' :: 'p' :: ':' :: '/' :: '/' :: replaceAll (pys "https://") rep w
  simp [replaceAll, pys, List.isPrefixOf]

theorem pySplit_ne_nil (pat : Str) : ∀ s : Str, pySplit pat s ≠ [] := by
  intro s
  induction s using pySplit.induct pat with
  | case1 => simp [pySplit]
  | case2 c rest hpre ih => rw [pySplit]; simp [hpre]
  | case3 c rest hpre ih => rw [pySplit]; simp [hpre]

theorem pySplit_getD_zero (pat : Str) : ∀ s : Str, (pySplit pat s).getD 0 [] = takeToOcc pat s := by
  intro s
  induction s with
  | nil => simp [pySplit, takeToOcc]
  | cons c rest ih =>
    by_cases hpre : pat.isPrefixOf (c :: rest) = true
    · rw [pySplit, takeToOcc]
      simp [hpre]
    · rw [pySplit, takeToOcc]
      simp only [Bool.not_eq_true] at hpre
      simp only [hpre, if_neg, Bool.false_eq_true, ite_false, List.getD_cons_zero]
      rw [← ih]
      rcases hsp : pySplit pat rest with _ | ⟨p, ps⟩
      · exact absurd hsp (pySplit_ne_nil pat rest)
      · simp

theorem occurs_cons_of_tail (pat : Str) (c : Char) (rest : Str)
    (h : occurs pat rest = true) : occurs pat (c :: rest) = true := by
  rw [occurs]
  simp [h]

theorem pySplit_getD_one (pat : Str) (hp : pat ≠ []) :
    ∀ s : Str, occurs pat s = true →
      (pySplit pat s).getD 1 [] = takeToOcc pat (dropThroughFirst pat s) := by
  intro s
  induction s with
  | nil =>
    intro h
    rw [occurs] at h
    cases pat with
    | nil => exact absurd rfl hp
    | cons a as => simp [List.isPrefixOf] at h
  | cons c rest ih =>
    intro h
    by_cases hpre : pat.isPrefixOf (c :: rest) = true
    · rw [pySplit, dropThroughFirst]
      simp only [hpre, if_pos]
      cases pat with
      | nil => exact absurd rfl hp
      | cons a as =>
        have hdrop : List.drop ((a :: as) : Str).length (c :: rest) =
            List.drop (((a :: as) : Str).length - 1) rest := by
          simp
        rw [hdrop]
        simp only [List.getD_cons_succ]
        exact pySplit_getD_zero (a :: as) _
    · have hocc : occurs pat rest = true := by
        rw [occurs] at h
        simp only [Bool.not_eq_true] at hpre
        simpa [hpre] using h
      rw [pySplit, dropThroughFirst]
      simp only [Bool.not_eq_true] at hpre
      simp only [hpre, Bool.false_eq_true, ite_false, List.getD_cons_succ]
      rw [← ih hocc]
      rcases hsp : pySplit pat rest with _ | ⟨p, ps⟩
      · exact absurd hsp (pySplit_ne_nil pat rest)
      · simp

theorem takeToOcc_slash (s : Str) :
    takeToOcc (pys "/") s = s.takeWhile (fun c => c != '/') := by
  induction s with
  | nil => rfl
  | cons c rest ih =>
    by_cases hc : c = '/'
    · subst hc
      rw [takeToOcc]
      simp [pys, List.isPrefixOf, List.takeWhile_cons]
    · rw [takeToOcc]
      have hno : (pys "/").isPrefixOf (c :: rest) = false := by
        simp [pys, List.isPrefixOf]
        exact fun h => absurd h.symm hc
      have hb : (c != '/') = true := by simp [hc]
      simp only [hno, Bool.false_eq_true, ite_false]
      rw [ih, List.takeWhile_cons, hb]
      simp

theorem takeWhile_takeToOcc (pat' : Str) :
    ∀ t : Str, (takeToOcc ('/' :: pat') t).takeWhile (fun c => c != '/') =
      t.takeWhile (fun c => c != '/') := by
  intro t
  induction t with
  | nil => rfl
  | cons c rest ih =>
    by_cases hpre : (('/' :: pat') : Str).isPrefixOf (c :: rest) = true
    · have hc : c = '/' := by
        simp only [List.isPrefixOf, Bool.and_eq_true, beq_iff_eq] at hpre
        exact hpre.1.symm
      subst hc
      rw [takeToOcc]
      have hb : (('/' : Char) != '/') = false := by simp
      simp [hpre, List.takeWhile_cons, hb]
    · simp only [Bool.not_eq_true] at hpre
      rw [takeToOcc]
      simp only [hpre, Bool.false_eq_true, ite_false]
      by_cases hc : c = '/'
      · subst hc
        have hb : (('/' : Char) != '/') = false := by simp
        simp [List.takeWhile_cons, hb]
      · have hb : (c != '/') = true := by simp [hc]
        rw [List.takeWhile_cons, List.takeWhile_cons, hb]
        simp [ih]

/-! Helper lemmas about the resolver. -/

theorem attemptOutcome_none_of_failed (r : Except Str (List Str))
    (h : lookupEmptyOrFailed r) : attemptOutcome r = none := by
  rcases h with rfl | ⟨e, rfl⟩ <;> rfl

theorem attemptOutcome_calm (r : Except Str (List Str)) :
    attemptOutcome (calmLookup r) = attemptOutcome r := by
  rcases r with e | _ | ⟨cid, ids⟩ <;> rfl

theorem lookup_chain_calm (env : LookupEnv) (u : Str) :
    lookup_chain (calmEnv env) u = lookup_chain env u := by
  unfold lookup_chain calmEnv
  simp only [attemptOutcome_calm]

/-- C3: for every URL string given to the resolver that contains a
`/channel/` segment, `resolve_core` returns the path segment immediately
following the first `/channel/` (up to the next `/` or the end of the
string), as a pure string operation: the trace of external lookup calls
is empty. -/
theorem c3_channel_segment (env : LookupEnv) (n : Str)
    (h : occurs (pys "/channel/") n = true) :
    resolve_core env n =
      (some ((dropThroughFirst (pys "/channel/") n).takeWhile (fun c => c != '/')), []) := by
  unfold resolve_core
  simp only [h, if_pos]
  rw [pySplit_getD_zero (pys "/"), takeToOcc_slash,
    pySplit_getD_one (pys "/channel/") (by decide) n h]
  rw [show pys "/channel/" = '/' :: pys "channel/" from rfl]
  rw [takeWhile_takeToOcc (pys "channel/")]

/-- Witness for C3 at the concrete URL
`https://www.youtube.com/channel/UC123/videos`. -/
theorem c3_channel_segment_witness :
    occurs (pys "/channel/") (pys "https://www.youtube.com/channel/UC123/videos") = true
    ∧ resolve_core emptyEnv (pys "https://www.youtube.com/channel/UC123/videos") =
        (some (pys "UC123"), []) :=
  ⟨by decide,
    (c3_channel_segment emptyEnv (pys "https://www.youtube.com/channel/UC123/videos")
      (by decide)).trans (by decide)⟩

/-- C1: on a URL of the handle/custom/user form (containing `/c/`,
`/user/` or `/@` but no `/channel/` segment, which takes precedence), the
resolver attempts the external lookups in the order handle-search,
username-lookup, general-search, short-circuiting at the first strategy
whose result set is non-empty and returning that result's first channel
identifier; the recorded call trace shows both the order and the
short-circuit. -/
theorem c1_strategy_order (env : LookupEnv) (n : Str)
    (hch : occurs (pys "/channel/") n = false)
    (hform : (occurs (pys "/c/") n || occurs (pys "/user/") n || occurs (pys "/@") n) = true) :
    (∀ cid ids, env.search (pys "@" ++ extract_username n) = Except.ok (cid :: ids) →
      resolve_core env n = (some cid, [LookupCall.search (pys "@" ++ extract_username n)]))
    ∧ (∀ cid ids, lookupEmptyOrFailed (env.search (pys "@" ++ extract_username n)) →
      env.channelsFor (extract_username n) = Except.ok (cid :: ids) →
      resolve_core env n = (some cid, [LookupCall.search (pys "@" ++ extract_username n),
        LookupCall.channelsFor (extract_username n)]))
    ∧ (∀ cid ids, lookupEmptyOrFailed (env.search (pys "@" ++ extract_username n)) →
      lookupEmptyOrFailed (env.channelsFor (extract_username n)) →
      env.search (extract_username n) = Except.ok (cid :: ids) →
      resolve_core env n = (some cid, [LookupCall.search (pys "@" ++ extract_username n),
        LookupCall.channelsFor (extract_username n), LookupCall.search (extract_username n)])) := by
  have hcore : resolve_core env n = lookup_chain env (extract_username n) := by
    unfold resolve_core
    simp [hch, hform]
  refine ⟨?_, ?_, ?_⟩
  · intro cid ids h1
    rw [hcore]
    unfold lookup_chain
    simp [h1, attemptOutcome]
  · intro cid ids h1 h2
    rw [hcore]
    unfold lookup_chain
    rw [attemptOutcome_none_of_failed _ h1]
    simp [h2, attemptOutcome]
  · intro cid ids h1 h2 h3
    rw [hcore]
    unfold lookup_chain
    rw [attemptOutcome_none_of_failed _ h1, attemptOutcome_none_of_failed _ h2]
    simp [h3, attemptOutcome]

/-- Witness for C1: for `https://www.youtube.com/@handle` in an
environment where the handle search succeeds with `UC999`, resolution
returns `UC999` after exactly the one handle-search call. -/
theorem c1_strategy_order_witness :
    occurs (pys "/channel/") (pys "https://www.youtube.com/@handle") = false
    ∧ (occurs (pys "/c/") (pys "https://www.youtube.com/@handle")
        || occurs (pys "/user/") (pys "https://www.youtube.com/@handle")
        || occurs (pys "/@") (pys "https://www.youtube.com/@handle")) = true
    ∧ resolve_core handleEnv (pys "https://www.youtube.com/@handle") =
        (some (pys "UC999"), [LookupCall.search (pys "@handle")]) := by
  refine ⟨by decide, by decide, ?_⟩
  have hu : extract_username (pys "https://www.youtube.com/@handle") = pys "handle" := by
    simp [extract_username, pySplit, occurs, pys, List.isPrefixOf]
  have happ : pys "@" ++ pys "handle" = pys "@handle" := rfl
  have h1 : handleEnv.search (pys "@" ++ extract_username (pys "https://www.youtube.com/@handle")) =
      Except.ok (pys "UC999" :: []) := by
    rw [hu, happ]
    rfl
  have := (c1_strategy_order handleEnv (pys "https://www.youtube.com/@handle")
    (by decide) (by decide)).1 (pys "UC999") [] h1
  rw [hu, happ] at this
  exact this

/-- C5: when the URL contains no `/channel/` segment and each of the
three fallback lookups either raises or returns an empty result set
(vacuously so when the URL is not of the handle/custom/user form either,
in which case no lookup is attempted), resolution reports the distinguished
not-found outcome: the Python function returns `None`. -/
theorem c5_not_found (env : LookupEnv) (n : Str)
    (hch : occurs (pys "/channel/") n = false)
    (h1 : lookupEmptyOrFailed (env.search (pys "@" ++ extract_username n)))
    (h2 : lookupEmptyOrFailed (env.channelsFor (extract_username n)))
    (h3 : lookupEmptyOrFailed (env.search (extract_username n))) :
    (resolve_core env n).1 = none := by
  unfold resolve_core
  by_cases hform : (occurs (pys "/c/") n || occurs (pys "/user/") n || occurs (pys "/@") n) = true
  · simp only [hch, Bool.false_eq_true, ite_false, hform, if_pos]
    unfold lookup_chain
    simp [attemptOutcome_none_of_failed _ h1, attemptOutcome_none_of_failed _ h2,
      attemptOutcome_none_of_failed _ h3]
  · simp [hch, hform]

/-- Witness for C5: a `/c/` URL in an environment whose lookups all
return empty result sets resolves to `None`. -/
theorem c5_not_found_witness :
    occurs (pys "/channel/") (pys "https://www.youtube.com/c/somebody") = false
    ∧ (resolve_core emptyEnv (pys "https://www.youtube.com/c/somebody")).1 = none :=
  ⟨by decide,
    c5_not_found emptyEnv (pys "https://www.youtube.com/c/somebody") (by decide)
      (Or.inl rfl) (Or.inl rfl) (Or.inl rfl)⟩

/-- C10: the public entry point `get_channel_id` is total at its
interface: for every URL and every environment behaviour (including
lookups that raise) its value is `none` or some channel identifier — the
model has no uncaught-exception outcome because every strategy failure is
caught — and its behaviour is unchanged when every raising lookup is
replaced by an empty-result lookup, i.e. an internal lookup failure is
handled exactly like "nothing found" and can only surface as `None`. -/
theorem c10_total_interface (env : LookupEnv) (url : Str) :
    ((get_channel_id env url).1 = none ∨ ∃ cid, (get_channel_id env url).1 = some cid)
    ∧ get_channel_id env url = get_channel_id (calmEnv env) url := by
  constructor
  · cases h : (get_channel_id env url).1 with
    | none => exact Or.inl rfl
    | some cid => exact Or.inr ⟨cid, rfl⟩
  · show resolve_core env (normalize_channel_url url) =
      resolve_core (calmEnv env) (normalize_channel_url url)
    unfold resolve_core
    rw [lookup_chain_calm]

/-! Helper lemmas about the URL normaliser. -/

theorem split_https_www (t : Str) :
    pys "https://www." ++ t = pys "https://" ++ (pys "www." ++ t) := rfl

theorem split_http_www (t : Str) :
    pys "http://www." ++ t = pys "http://" ++ (pys "www." ++ t) := rfl

theorem np7_www (t : Str) : (pys "http://").isPrefixOf (pys "www." ++ t) = false := by
  show (pys "http://").isPrefixOf ('w' :: (pys "ww." ++ t)) = false
  simp [pys, List.isPrefixOf]

theorem np8_www (t : Str) : (pys "https://").isPrefixOf (pys "www." ++ t) = false := by
  show (pys "https://").isPrefixOf ('w' :: (pys "ww." ++ t)) = false
  simp [pys, List.isPrefixOf]

theorem norm_noscheme (url : Str)
    (h7 : (pys "http://").isPrefixOf url = false)
    (h8 : (pys "https://").isPrefixOf url = false) :
    (pys "https://").isPrefixOf (normalize_channel_url url) = true := by
  unfold normalize_channel_url
  simp only [h7, h8, Bool.or_self, Bool.not_false, if_pos]
  by_cases hw : (pys "https://www.").isPrefixOf (pys "https://" ++ url) = true
  · simp only [hw, Bool.not_true, Bool.false_eq_true, ite_false]
    exact ipo_append_self _ _
  · simp only [Bool.not_eq_true] at hw
    simp only [hw, Bool.not_false, if_pos]
    rw [replaceAll_append_self _ _ _ (by decide), split_https_www]
    exact ipo_append_self _ _

theorem norm_scheme (url : Str)
    (hs : (pys "http://").isPrefixOf url = true ∨ (pys "https://").isPrefixOf url = true) :
    (pys "http://").isPrefixOf (normalize_channel_url url) = true
      ∨ (pys "https://").isPrefixOf (normalize_channel_url url) = true := by
  have hor : ((pys "http://").isPrefixOf url || (pys "https://").isPrefixOf url) = true := by
    rcases hs with h | h <;> simp [h]
  unfold normalize_channel_url
  simp only [hor, Bool.not_true, Bool.false_eq_true, ite_false]
  by_cases hww : ((pys "http://www.").isPrefixOf url
      || (pys "https://www.").isPrefixOf url) = true
  · simp only [hww, Bool.not_true, Bool.false_eq_true, ite_false]
    exact hs
  · simp only [Bool.not_eq_true] at hww
    simp only [hww, Bool.not_false, if_pos]
    by_cases h8 : (pys "https://").isPrefixOf url = true
    · obtain ⟨t, rfl⟩ := ipo_exists _ url h8
      rw [replaceAll_append_self _ _ _ (by decide), replaceAll_keep_httpswww]
      right
      rw [split_https_www]
      exact ipo_append_self _ _
    · have h7 : (pys "http://").isPrefixOf url = true := by
        rcases hs with h | h
        · exact h
        · exact absurd h h8
      obtain ⟨t, rfl⟩ := ipo_exists _ url h7
      rw [replaceAll_keep_http, replaceAll_append_self _ _ _ (by decide), split_http_www]
      left
      exact ipo_append_self _ _

theorem norm_www_start (url t : Str) (hu : url = pys "www." ++ t) :
    normalize_channel_url url = pys "https://" ++ url := by
  subst hu
  unfold normalize_channel_url
  simp only [np7_www, np8_www, Bool.or_self, Bool.not_false, if_pos]
  have hw : (pys "https://www.").isPrefixOf (pys "https://" ++ (pys "www." ++ t)) = true := by
    rw [← split_https_www]
    exact ipo_append_self _ _
  simp only [hw, Bool.not_true, Bool.false_eq_true, ite_false]

theorem norm_https_www_start (url t : Str) (hu : url = pys "https://www." ++ t) :
    normalize_channel_url url = url := by
  subst hu
  have h8 : (pys "https://").isPrefixOf (pys "https://www." ++ t) = true := by
    rw [split_https_www]
    exact ipo_append_self _ _
  have h12 : (pys "https://www.").isPrefixOf (pys "https://www." ++ t) = true :=
    ipo_append_self _ _
  unfold normalize_channel_url
  simp only [h8, h12, Bool.or_true, Bool.not_true, Bool.false_eq_true, ite_false]

theorem norm_http_www_start (url t : Str) (hu : url = pys "http://www." ++ t) :
    normalize_channel_url url = url := by
  subst hu
  have h7 : (pys "http://").isPrefixOf (pys "http://www." ++ t) = true := by
    rw [split_http_www]
    exact ipo_append_self _ _
  have h11 : (pys "http://www.").isPrefixOf (pys "http://www." ++ t) = true :=
    ipo_append_self _ _
  unfold normalize_channel_url
  simp only [h7, h11, Bool.true_or, Bool.not_true, Bool.false_eq_true, ite_false]

theorem norm_noscheme_www (url : Str)
    (h7 : (pys "http://").isPrefixOf url = false)
    (h8 : (pys "https://").isPrefixOf url = false) :
    (pys "https://www.").isPrefixOf (normalize_channel_url url) = true := by
  unfold normalize_channel_url
  simp only [h7, h8, Bool.or_self, Bool.not_false, if_pos]
  by_cases hw : (pys "https://www.").isPrefixOf (pys "https://" ++ url) = true
  · simp only [hw, Bool.not_true, Bool.false_eq_true, ite_false]
  · simp only [Bool.not_eq_true] at hw
    simp only [hw, Bool.not_false, if_pos]
    rw [replaceAll_append_self _ _ _ (by decide)]
    exact ipo_append_self _ _

theorem norm_scheme_www (url : Str)
    (hs : (pys "http://").isPrefixOf url = true ∨ (pys "https://").isPrefixOf url = true) :
    (pys "http://www.").isPrefixOf (normalize_channel_url url) = true
      ∨ (pys "https://www.").isPrefixOf (normalize_channel_url url) = true := by
  have hor : ((pys "http://").isPrefixOf url || (pys "https://").isPrefixOf url) = true := by
    rcases hs with h | h <;> simp [h]
  unfold normalize_channel_url
  simp only [hor, Bool.not_true, Bool.false_eq_true, ite_false]
  by_cases hww : ((pys "http://www.").isPrefixOf url
      || (pys "https://www.").isPrefixOf url) = true
  · simp only [hww, Bool.not_true, Bool.false_eq_true, ite_false]
    simp only [Bool.or_eq_true] at hww
    exact hww
  · simp only [Bool.not_eq_true] at hww
    simp only [hww, Bool.not_false, if_pos]
    by_cases h8 : (pys "https://").isPrefixOf url = true
    · obtain ⟨t, rfl⟩ := ipo_exists _ url h8
      rw [replaceAll_append_self _ _ _ (by decide), replaceAll_keep_httpswww]
      right
      exact ipo_append_self _ _
    · have h7 : (pys "http://").isPrefixOf url = true := by
        rcases hs with h | h
        · exact h
        · exact absurd h h8
      obtain ⟨t, rfl⟩ := ipo_exists _ url h7
      rw [replaceAll_keep_http, replaceAll_append_self _ _ _ (by decide)]
      left
      exact ipo_append_self _ _

/-- C8: the URL normaliser always yields a string beginning with
`http://` or `https://`; a scheme-less input is given `https` (and in the
no-scheme branch the result specifically starts with `https://`); an input
whose host already starts with `www.` only gains the scheme, and an input
already of the form `http(s)://www.…` is returned unchanged — the
existing `www.` host prefix is never duplicated.  Moreover a `www.` host
prefix is inserted where the input lacked one: on every input the output
begins with `http://www.` or `https://www.`.  The normaliser is a total
function of its argument, so it has no side effects and never raises. -/
theorem c8_normalizer (url : Str) :
    ((pys "http://").isPrefixOf (normalize_channel_url url) = true
      ∨ (pys "https://").isPrefixOf (normalize_channel_url url) = true)
    ∧ ((pys "http://").isPrefixOf url = false → (pys "https://").isPrefixOf url = false →
      (pys "https://").isPrefixOf (normalize_channel_url url) = true)
    ∧ ((pys "www.").isPrefixOf url = true →
      normalize_channel_url url = pys "https://" ++ url)
    ∧ ((pys "https://www.").isPrefixOf url = true → normalize_channel_url url = url)
    ∧ ((pys "http://www.").isPrefixOf url = true → normalize_channel_url url = url)
    ∧ ((pys "http://www.").isPrefixOf (normalize_channel_url url) = true
      ∨ (pys "https://www.").isPrefixOf (normalize_channel_url url) = true) := by
  refine ⟨?_, ?_, ?_, ?_, ?_, ?_⟩
  · by_cases h7 : (pys "http://").isPrefixOf url = true
    · exact norm_scheme url (Or.inl h7)
    · by_cases h8 : (pys "https://").isPrefixOf url = true
      · exact norm_scheme url (Or.inr h8)
      · simp only [Bool.not_eq_true] at h7 h8
        exact Or.inr (norm_noscheme url h7 h8)
  · intro h7 h8
    exact norm_noscheme url h7 h8
  · intro hw
    obtain ⟨t, ht⟩ := ipo_exists _ url hw
    exact norm_www_start url t ht
  · intro hw
    obtain ⟨t, ht⟩ := ipo_exists _ url hw
    exact norm_https_www_start url t ht
  · intro hw
    obtain ⟨t, ht⟩ := ipo_exists _ url hw
    exact norm_http_www_start url t ht
  · by_cases h7 : (pys "http://").isPrefixOf url = true
    · exact norm_scheme_www url (Or.inl h7)
    · by_cases h8 : (pys "https://").isPrefixOf url = true
      · exact norm_scheme_www url (Or.inr h8)
      · simp only [Bool.not_eq_true] at h7 h8
        exact Or.inr (norm_noscheme_www url h7 h8)

/-- Witness for C8 at concrete inputs: a scheme-less `www.` input gains
only the scheme, an already fully normalised input is unchanged, and an
input with a scheme but no `www.` host prefix gets `www.` inserted. -/
theorem c8_normalizer_witness :
    ((pys "www.").isPrefixOf (pys "www.youtube.com/@x") = true
      ∧ normalize_channel_url (pys "www.youtube.com/@x") =
          pys "https://" ++ pys "www.youtube.com/@x")
    ∧ ((pys "https://www.").isPrefixOf (pys "https://www.youtube.com/@x") = true
      ∧ normalize_channel_url (pys "https://www.youtube.com/@x") =
          pys "https://www.youtube.com/@x")
    ∧ ((pys "http://www.").isPrefixOf
          (normalize_channel_url (pys "https://youtube.com/x")) = true
      ∨ (pys "https://www.").isPrefixOf
          (normalize_channel_url (pys "https://youtube.com/x")) = true) :=
  ⟨⟨by decide, (c8_normalizer (pys "www.youtube.com/@x")).2.2.1 (by decide)⟩,
   ⟨by decide, (c8_normalizer (pys "https://www.youtube.com/@x")).2.2.2.1 (by decide)⟩,
   (c8_normalizer (pys "https://youtube.com/x")).2.2.2.2.2⟩

/-! Helper lemmas about the video lister. -/

theorem map_raw_item_ok_of_wf (it : RawItem) (h : wellFormedItem it = true) :
    ∃ v, map_raw_item it = Except.ok v := by
  rcases it with ⟨vid, t, d, p⟩
  rcases vid with _ | vid <;> rcases t with _ | t <;> rcases d with _ | d <;>
    rcases p with _ | p <;> simp [wellFormedItem] at h
  exact ⟨⟨vid, t, d, p⟩, rfl⟩

theorem execItems_spec (m : Int) (items : List RawItem) :
    ∀ videos : List VideoInfo, items.all wellFormedItem = true →
    ∃ vs, execItems m videos items = Except.ok vs ∧
      (((videos.length : Int) + items.length ≤ m → vs.length = videos.length + items.length)
       ∧ (m ≤ (videos.length : Int) → vs = videos)
       ∧ ((videos.length : Int) ≤ m → m ≤ (videos.length : Int) + items.length →
           (vs.length : Int) = m)) := by
  induction items with
  | nil =>
    intro videos _
    refine ⟨videos, rfl, ?_, fun _ => rfl, ?_⟩
    · intro _
      simp
    · intro h1 h2
      simp only [List.length_nil] at h2
      omega
  | cons it tl ih =>
    intro videos hall
    simp only [List.all_cons, Bool.and_eq_true] at hall
    obtain ⟨vinfo, hmap⟩ := map_raw_item_ok_of_wf it hall.1
    by_cases hge : (videos.length : Int) ≥ m
    · refine ⟨videos, ?_, ?_, fun _ => rfl, ?_⟩
      · simp [execItems, hge]
      · intro h
        simp only [List.length_cons] at h
        omega
      · intro h1 h2
        omega
    · obtain ⟨vs, hex, hc1, hc2, hc3⟩ := ih (videos ++ [vinfo]) hall.2
      have hlen : (videos ++ [vinfo]).length = videos.length + 1 := by simp
      refine ⟨vs, ?_, ?_, ?_, ?_⟩
      · simp [execItems, hge, hmap, hex]
      · intro h
        simp only [List.length_cons] at h ⊢
        have := hc1 (by rw [hlen]; push_cast; omega)
        rw [hlen] at this
        omega
      · intro h
        omega
      · intro h1 h2
        simp only [List.length_cons] at h2
        have := hc3 (by rw [hlen]; push_cast; omega) (by rw [hlen]; push_cast; omega)
        exact this

theorem pagesLoop_calls (m : Int) :
    ∀ (script : List (Except Str Page)) (videos : List VideoInfo) (c : CallRec),
      c ∈ (pagesLoop m script videos (some (min 50 (m - (videos.length : Int))))).2 →
      c.requested = min 50 (m - (c.accBefore : Int)) := by
  intro script
  induction script with
  | nil =>
    intro videos c hc
    by_cases hv : (videos.length : Int) < m
    · simp only [pagesLoop, hv, if_pos, List.mem_singleton] at hc
      subst hc
      rfl
    · simp [pagesLoop, hv] at hc
  | cons x rest ih =>
    intro videos c hc
    by_cases hv : (videos.length : Int) < m
    · rcases x with e | page
      · simp only [pagesLoop, hv, if_pos, List.mem_singleton] at hc
        subst hc
        rfl
      · rcases hex : execItems m videos page.items with e | videos2
        · simp only [pagesLoop, hv, if_pos, hex, List.mem_singleton] at hc
          subst hc
          rfl
        · rcases htok : page.nextPageToken with _ | tok
          · simp only [pagesLoop, hv, if_pos, hex, htok, List.mem_singleton] at hc
            subst hc
            rfl
          · by_cases hv2 : (videos2.length : Int) < m
            · simp only [pagesLoop, hv, if_pos, hex, htok, hv2, List.mem_cons] at hc
              rcases hc with hc | hc
              · subst hc
                rfl
              · exact ih videos2 c hc
            · simp only [pagesLoop, hv, if_pos, hex, htok, hv2, Bool.false_eq_true,
                ite_false, List.mem_singleton] at hc
              subst hc
              rfl
    · rw [pagesLoop.eq_def] at hc
      simp [hv] at hc

theorem pagesLoop_full (m : Int) :
    ∀ script : List (Except Str Page), script.all fullPageB = true →
    ∀ videos : List VideoInfo, (videos.length : Int) < m →
      m ≤ 50 * script.length + videos.length →
      ∃ vs, (pagesLoop m script videos (some (min 50 (m - (videos.length : Int))))).1
          = Except.ok vs ∧ (vs.length : Int) = m := by
  intro script
  induction script with
  | nil =>
    intro _ videos hv hm
    exfalso
    simp only [List.length_nil] at hm
    omega
  | cons x rest ih =>
    intro hall videos hv hm
    simp only [List.all_cons, Bool.and_eq_true] at hall
    rcases x with e | page
    · simp [fullPageB] at hall
    · have hfp := hall.1
      simp only [fullPageB, Bool.and_eq_true, beq_iff_eq] at hfp
      obtain ⟨⟨hlen, htokS⟩, hwf⟩ := hfp
      obtain ⟨tok, htok⟩ := Option.isSome_iff_exists.mp htokS
      obtain ⟨vs, hex, hc1, hc2, hc3⟩ := execItems_spec m page.items videos hwf
      simp only [List.length_cons] at hm
      by_cases hcase : (videos.length : Int) + 50 < m
      · have hlen2 : vs.length = videos.length + 50 := by
          have := hc1 (by rw [hlen]; push_cast; omega)
          rw [hlen] at this
          omega
        have hv2 : (vs.length : Int) < m := by
          rw [hlen2]
          push_cast
          omega
        obtain ⟨final, hfin, hflen⟩ := ih hall.2 vs hv2 (by rw [hlen2]; push_cast at hm ⊢; omega)
        refine ⟨final, ?_, hflen⟩
        simp only [pagesLoop, hv, if_pos, hex, htok, hv2]
        exact hfin
      · have hvm : (vs.length : Int) = m := by
          refine hc3 (le_of_lt hv) ?_
          rw [hlen]
          push_cast
          omega
        have hnot : ¬ ((vs.length : Int) < m) := by omega
        refine ⟨vs, ?_, hvm⟩
        simp [pagesLoop, hv, hex, htok, hnot]

theorem gcv_trace (script : List (Except Str Page)) (m : Int) :
    (get_channel_videos script m).2 = (pagesLoop m script [] (some (min 50 m))).2 := by
  unfold get_channel_videos
  rcases h : (pagesLoop m script [] (some (min 50 m))).1 <;> simp [h]

theorem gcv_fst_ok (script : List (Except Str Page)) (m : Int) (vs : List VideoInfo)
    (h : (pagesLoop m script [] (some (min 50 m))).1 = Except.ok vs) :
    (get_channel_videos script m).1 = Except.ok vs := by
  unfold get_channel_videos
  simp [h]

/-- C2: every page request of the video lister asks for exactly (hence at
most) `min(50, maxResults - records accumulated so far)` items; whenever
the upstream pages are successful full pages that supply at least
`maxResults` well-formed items, the returned list has exactly `maxResults`
records (the last page's overshoot is truncated); and listing 75 records
from 50-item pages takes exactly two paginated calls, of sizes 50 and 25. -/
theorem c2_page_sizes_and_count :
    (∀ (script : List (Except Str Page)) (m : Int) (c : CallRec),
      c ∈ (get_channel_videos script m).2 →
      c.requested = min 50 (m - (c.accBefore : Int)))
    ∧ (∀ (script : List (Except Str Page)) (m : Int), script.all fullPageB = true →
      0 < m → m ≤ 50 * script.length →
      ∃ vs, (get_channel_videos script m).1 = Except.ok vs ∧ (vs.length : Int) = m)
    ∧ get_channel_videos script75 75 =
        (Except.ok (List.replicate 75 ⟨[], [], [], []⟩), [⟨50, 0⟩, ⟨25, 50⟩]) := by
  have hnil : ((([] : List VideoInfo)).length : Int) = 0 := by simp
  refine ⟨?_, ?_, by decide⟩
  · intro script m c hc
    rw [gcv_trace] at hc
    refine pagesLoop_calls m script [] c ?_
    rw [hnil, Int.sub_zero]
    exact hc
  · intro script m hall hm hbound
    obtain ⟨vs, hok, hlen⟩ := pagesLoop_full m script hall []
      (by rw [hnil]; exact hm) (by rw [hnil]; omega)
    rw [hnil, Int.sub_zero] at hok
    exact ⟨vs, gcv_fst_ok script m vs hok, hlen⟩

/-- Witness for C2: in the 75-record run over two 50-item pages, the
second recorded call was issued with 50 records accumulated and requested
`min(50, 75 - 50) = 25` items. -/
theorem c2_page_sizes_and_count_witness :
    (⟨25, 50⟩ : CallRec) ∈ (get_channel_videos script75 75).2
    ∧ (⟨25, 50⟩ : CallRec).requested = min 50 (75 - ((⟨25, 50⟩ : CallRec).accBefore : Int)) :=
  ⟨by decide, c2_page_sizes_and_count.1 script75 75 ⟨25, 50⟩ (by decide)⟩

/-- C4: as soon as a page response arrives without a `nextPageToken`, the
lister issues no further search call — whatever scripted pages would still
be available — and returns the records accumulated so far (including the
ones of that final page): the call trace of the remaining run is exactly
the one call that received the token-less response. -/
theorem c4_stop_without_token (m : Int) (p : Page) (rest : List (Except Str Page))
    (videos vs2 : List VideoInfo) (r : Int)
    (htok : p.nextPageToken = none)
    (hv : (videos.length : Int) < m)
    (hexec : execItems m videos p.items = Except.ok vs2) :
    pagesLoop m (Except.ok p :: rest) videos (some r) =
      (Except.ok vs2, [⟨r, videos.length⟩]) := by
  simp [pagesLoop, hv, hexec, htok]

/-- Witness for C4: a single one-item page without a token, followed by a
further available full page, produces exactly one call and the one mapped
record. -/
theorem c4_stop_without_token_witness :
    (Page.mk [blankRawItem] none).nextPageToken = none
    ∧ ((([] : List VideoInfo)).length : Int) < 10
    ∧ execItems 10 [] (Page.mk [blankRawItem] none).items =
        Except.ok [⟨[], [], [], []⟩]
    ∧ pagesLoop 10 [Except.ok (Page.mk [blankRawItem] none), Except.ok fullPage50] []
        (some 10) = (Except.ok [⟨[], [], [], []⟩], [⟨10, 0⟩]) :=
  ⟨rfl, by decide, by decide,
    c4_stop_without_token 10 (Page.mk [blankRawItem] none) [Except.ok fullPage50] []
      [⟨[], [], [], []⟩] 10 rfl (by decide) (by decide)⟩

/-- C6 counterexample: an upstream failure is not propagated unmodified —
the lister re-raises it as a new generic exception whose message wraps the
upstream message with the prefix `Failed to retrieve videos: `, so the
error the caller sees differs from the upstream error. -/
theorem c6_counterexample :
    get_channel_videos [Except.error (pys "quotaExceeded")] 5 =
      (Except.error (pys "Failed to retrieve videos: quotaExceeded"), [⟨5, 0⟩])
    ∧ pys "Failed to retrieve videos: quotaExceeded" ≠ pys "quotaExceeded" :=
  ⟨by decide, by decide⟩

/-- C6 amended: when an upstream call of the lister fails, the lister
does not retry — the failing call is the last one issued — and the failure
is not converted into a normal return value: it aborts the listing and is
re-raised to the caller as a single exception whose message is the
upstream message prefixed with `Failed to retrieve videos: `. -/
theorem c6_error_wrapped (m : Int) (e : Str) :
    (∀ rest, 0 < m →
      get_channel_videos (Except.error e :: rest) m =
        (Except.error (pys "Failed to retrieve videos: " ++ e), [⟨min 50 m, 0⟩]))
    ∧ (∀ rest (videos : List VideoInfo) (r : Int), (videos.length : Int) < m →
      pagesLoop m (Except.error e :: rest) videos (some r) =
        (Except.error e, [⟨r, videos.length⟩])) := by
  constructor
  · intro rest hm
    unfold get_channel_videos
    simp [pagesLoop, hm]
  · intro rest videos r hv
    simp [pagesLoop, hv]

/-- Witness for C6's amended statement at a concrete failing script. -/
theorem c6_error_wrapped_witness :
    (0 : Int) < 7
    ∧ get_channel_videos [Except.error (pys "boom")] 7 =
        (Except.error (pys "Failed to retrieve videos: boom"), [⟨7, 0⟩]) :=
  ⟨by decide, ((c6_error_wrapped 7 (pys "boom")).1 [] (by decide)).trans (by decide)⟩

/-- C7 counterexample: an item with `id.videoId = "abc"` and
`snippet.title = "T"` but no `description` is not mapped with an
empty-string default; the mapper raises a `KeyError` instead. -/
theorem c7_counterexample :
    map_raw_item ⟨some (pys "abc"), some (pys "T"), none, some (pys "2024")⟩ =
      Except.error (pys "KeyError: description")
    ∧ map_raw_item ⟨some (pys "abc"), some (pys "T"), none, some (pys "2024")⟩ ≠
        Except.ok ⟨pys "abc", pys "T", [], pys "2024"⟩ :=
  ⟨by decide, by decide⟩

/-- C7 amended: the mapper takes `id` and `title` from `id.videoId` and
`snippet.title`, and a fully populated item round-trips into the expected
record; but all four fields are required — a missing field, the nominally
optional `description`/`publishedAt` included, raises a mapping error
(the `KeyError` of the first absent field in source order), which the
item loop propagates to the caller instead of skipping the item or
defaulting the field. -/
theorem c7_mapper_required_fields (it : RawItem) (vid t d p : Str) (m : Int) :
    (it.videoId = some vid → it.title = some t → it.description = some d →
      it.publishedAt = some p → map_raw_item it = Except.ok ⟨vid, t, d, p⟩)
    ∧ (it.videoId = none → map_raw_item it = Except.error (pys "KeyError: videoId"))
    ∧ (it.videoId = some vid → it.title = none →
      map_raw_item it = Except.error (pys "KeyError: title"))
    ∧ (it.videoId = some vid → it.title = some t → it.description = none →
      map_raw_item it = Except.error (pys "KeyError: description"))
    ∧ (it.videoId = some vid → it.title = some t → it.description = some d →
      it.publishedAt = none → map_raw_item it = Except.error (pys "KeyError: publishedAt"))
    ∧ (∀ e (videos : List VideoInfo) (tl : List RawItem),
      map_raw_item it = Except.error e → (videos.length : Int) < m →
      execItems m videos (it :: tl) = Except.error e) := by
  refine ⟨?_, ?_, ?_, ?_, ?_, ?_⟩
  · intro h1 h2 h3 h4
    simp [map_raw_item, pyKey, h1, h2, h3, h4]
  · intro h1
    simp [map_raw_item, pyKey, h1]
  · intro h1 h2
    simp [map_raw_item, pyKey, h1, h2]
  · intro h1 h2 h3
    simp [map_raw_item, pyKey, h1, h2, h3]
  · intro h1 h2 h3 h4
    simp [map_raw_item, pyKey, h1, h2, h3, h4]
  · intro e videos tl hmap hv
    have hng : ¬ ((videos.length : Int) ≥ m) := by omega
    simp [execItems, hng, hmap]

/-- Witness for C7's amended statement: the round-trip on a fully
populated item. -/
theorem c7_mapper_required_fields_witness :
    map_raw_item ⟨some (pys "abc"), some (pys "T"), some (pys "D"), some (pys "24")⟩ =
      Except.ok ⟨pys "abc", pys "T", pys "D", pys "24"⟩ :=
  (c7_mapper_required_fields
    ⟨some (pys "abc"), some (pys "T"), some (pys "D"), some (pys "24")⟩
    (pys "abc") (pys "T") (pys "D") (pys "24") 0).1 rfl rfl rfl rfl

/-- C9: for every scripted upstream and every `maxResults <= 0`, the
lister returns an empty list and issues zero calls to the search
endpoint: the recorded call trace is empty. -/
theorem c9_nonpositive_max (script : List (Except Str Page)) (m : Int) (hm : m ≤ 0) :
    get_channel_videos script m = (Except.ok [], []) := by
  have h : ¬ (0 : Int) < m := by omega
  unfold get_channel_videos
  rw [pagesLoop.eq_def]
  simp [h]

/-- Witness for C9 at `maxResults = 0` with a page available upstream. -/
theorem c9_nonpositive_max_witness :
    (0 : Int) ≤ 0 ∧ get_channel_videos [Except.ok fullPage50] 0 = (Except.ok [], []) :=
  ⟨by decide, c9_nonpositive_max [Except.ok fullPage50] 0 (by decide)⟩
